import Mathlib

/-!
Verification of the payroll-system repository (Rust, axum + sqlx).

Shallow embedding notes:
* `rust_decimal::Decimal` values are modelled as rationals (`ℚ`).  Every
  arithmetic operation the payroll code performs on decimals (addition,
  subtraction, multiplication, division by the constant 100, `max`) is exact
  in `Decimal` on the magnitudes involved, so `ℚ` is a faithful model.
* `Uuid` identities are modelled as `Nat`.
* Database reads that the code branches on when they fail (employee fetch,
  tax-config fetch, adjustment fetch, wallet read) are modelled as `Option`
  oracles; database writes, whose errors the code discards with `let _ = …`
  or `.ok()`, are modelled as always succeeding.
* The external gateway (`MonnifyService::send_transfer`) is an oracle
  returning `some reference` on success and `none` on failure.  The email
  notification has no effect on any modelled state and is omitted.
-/

/-- `models::AdjustmentType` (src/models/mod.rs). -/
inductive AdjustmentType where
  | overtime
  | bonus
  | commission
  | lateDayDeduction
  | unpaidLeaveDeduction
  | otherDeduction
  | otherAddition
deriving DecidableEq, Repr

/-- `models::PayrollAdjustment`, restricted to the fields
`PayrollService::calculate` reads. -/
structure PayrollAdjustment where
  adjustment_type : AdjustmentType
  amount : ℚ
deriving DecidableEq, Repr

/-- `models::Employee`, restricted to the fields the payroll pipeline
computes with (`id`, `base_salary`); names and bank fields only feed
strings to the gateway call, which is abstracted as an oracle. -/
structure Employee where
  id : Nat
  base_salary : ℚ
deriving DecidableEq, Repr

/-- `models::TaxConfig`, restricted to the four rate fields. -/
structure TaxConfig where
  paye_rate : ℚ
  pension_rate : ℚ
  nhf_rate : ℚ
  nhis_rate : ℚ
deriving DecidableEq, Repr

/-- `services::payroll::CalculatedSlip`. -/
structure CalculatedSlip where
  employee_id : Nat
  base_salary : ℚ
  total_additions : ℚ
  gross_salary : ℚ
  paye_tax : ℚ
  pension_deduction : ℚ
  nhf_deduction : ℚ
  nhis_deduction : ℚ
  other_deductions : ℚ
  total_deductions : ℚ
  net_salary : ℚ
deriving DecidableEq, Repr

/-- The filter on addition-typed adjustments in
`PayrollService::calculate` (the `matches!` on
Overtime | Bonus | Commission | OtherAddition). -/
def isAdditionType (t : AdjustmentType) : Bool :=
  match t with
  | .overtime => true
  | .bonus => true
  | .commission => true
  | .otherAddition => true
  | _ => false

/-- The filter on deduction-typed adjustments in
`PayrollService::calculate` (the `matches!` on
LateDayDeduction | UnpaidLeaveDeduction | OtherDeduction). -/
def isDeductionType (t : AdjustmentType) : Bool :=
  match t with
  | .lateDayDeduction => true
  | .unpaidLeaveDeduction => true
  | .otherDeduction => true
  | _ => false

namespace PayrollService

/-- `PayrollService::calculate` (src/services/payroll.rs, lines 32-91),
translated clause by clause: the two filter/map/sum folds, gross salary,
the four percentage components, the deduction total, and the
`max(·, 0)` clamp on net salary. -/
def calculate (employee : Employee) (adjustments : List PayrollAdjustment)
    (tax_config : TaxConfig) : CalculatedSlip :=
  let hundred : ℚ := 100
  let total_additions : ℚ :=
    ((adjustments.filter (fun a => isAdditionType a.adjustment_type)).map
      (fun a => a.amount)).sum
  let other_deductions : ℚ :=
    ((adjustments.filter (fun a => isDeductionType a.adjustment_type)).map
      (fun a => a.amount)).sum
  let gross_salary := employee.base_salary + total_additions
  let paye_tax := gross_salary * tax_config.paye_rate / hundred
  let pension_deduction := gross_salary * tax_config.pension_rate / hundred
  let nhf_deduction := gross_salary * tax_config.nhf_rate / hundred
  let nhis_deduction := gross_salary * tax_config.nhis_rate / hundred
  let total_deductions :=
    paye_tax + pension_deduction + nhf_deduction + nhis_deduction + other_deductions
  let net_salary := max (gross_salary - total_deductions) 0
  { employee_id := employee.id
    base_salary := employee.base_salary
    total_additions := total_additions
    gross_salary := gross_salary
    paye_tax := paye_tax
    pension_deduction := pension_deduction
    nhf_deduction := nhf_deduction
    nhis_deduction := nhis_deduction
    other_deductions := other_deductions
    total_deductions := total_deductions
    net_salary := net_salary }

end PayrollService

/-- Spec-side view of the addition sum: every adjustment contributes its
amount exactly when its type is overtime, bonus, commission or
other-addition, and contributes nothing otherwise. -/
def specAdditionSum (adjustments : List PayrollAdjustment) : ℚ :=
  (adjustments.map (fun a =>
    if a.adjustment_type = .overtime ∨ a.adjustment_type = .bonus ∨
       a.adjustment_type = .commission ∨ a.adjustment_type = .otherAddition
    then a.amount else 0)).sum

/-- Spec-side view of the other-deductions sum: every adjustment
contributes its amount exactly when its type is late-day deduction,
unpaid-leave deduction or other-deduction, and nothing otherwise. -/
def specDeductionSum (adjustments : List PayrollAdjustment) : ℚ :=
  (adjustments.map (fun a =>
    if a.adjustment_type = .lateDayDeduction ∨
       a.adjustment_type = .unpaidLeaveDeduction ∨
       a.adjustment_type = .otherDeduction
    then a.amount else 0)).sum

lemma filter_map_sum_eq_ite_sum (p : AdjustmentType → Bool)
    (adjustments : List PayrollAdjustment) :
    ((adjustments.filter (fun a => p a.adjustment_type)).map
      (fun a => a.amount)).sum
      = (adjustments.map (fun a =>
          if p a.adjustment_type then a.amount else (0 : ℚ))).sum := by
  induction adjustments with
  | nil => rfl
  | cons a rest ih =>
    by_cases h : p a.adjustment_type
    · simp [List.filter_cons, h, ih]
    · simp [List.filter_cons, h, ih]

/-- **C1.** `PayrollService::calculate` returns `total_additions` equal to
the sum of the amounts of exactly the addition-typed adjustments,
`other_deductions` equal to the sum over exactly the deduction-typed
adjustments, `gross_salary = base_salary + total_additions`, each tax
component `gross_salary × rate / 100` in exact arithmetic, and
`total_deductions = paye + pension + nhf + nhis + other_deductions`. -/
theorem calculate_components (employee : Employee)
    (adjustments : List PayrollAdjustment) (tax_config : TaxConfig) :
    let s := PayrollService.calculate employee adjustments tax_config
    s.total_additions = specAdditionSum adjustments ∧
    s.other_deductions = specDeductionSum adjustments ∧
    s.gross_salary = employee.base_salary + s.total_additions ∧
    s.paye_tax = s.gross_salary * tax_config.paye_rate / 100 ∧
    s.pension_deduction = s.gross_salary * tax_config.pension_rate / 100 ∧
    s.nhf_deduction = s.gross_salary * tax_config.nhf_rate / 100 ∧
    s.nhis_deduction = s.gross_salary * tax_config.nhis_rate / 100 ∧
    s.total_deductions = s.paye_tax + s.pension_deduction + s.nhf_deduction +
      s.nhis_deduction + s.other_deductions := by
  refine ⟨?_, ?_, rfl, rfl, rfl, rfl, rfl, rfl⟩
  · show ((adjustments.filter (fun a => isAdditionType a.adjustment_type)).map
      (fun a => a.amount)).sum = specAdditionSum adjustments
    rw [specAdditionSum, filter_map_sum_eq_ite_sum isAdditionType adjustments]
    congr 1
    congr 1
    funext a
    cases h : a.adjustment_type <;> simp [isAdditionType, h]
  · show ((adjustments.filter (fun a => isDeductionType a.adjustment_type)).map
      (fun a => a.amount)).sum = specDeductionSum adjustments
    rw [specDeductionSum, filter_map_sum_eq_ite_sum isDeductionType adjustments]
    congr 1
    congr 1
    funext a
    cases h : a.adjustment_type <;> simp [isDeductionType, h]

/-- **C7.** `net_salary` is `max(gross_salary − total_deductions, 0)` and is
therefore non-negative even when deductions exceed gross salary. -/
theorem calculate_net_clamped (employee : Employee)
    (adjustments : List PayrollAdjustment) (tax_config : TaxConfig) :
    let s := PayrollService.calculate employee adjustments tax_config
    s.net_salary = max (s.gross_salary - s.total_deductions) 0 ∧
    0 ≤ s.net_salary := by
  exact ⟨rfl, le_max_right _ _⟩

/-- Scenario employee with base salary 300,000. -/
def scenarioEmployee : Employee := ⟨1, 300000⟩

/-- Scenario adjustments: a single bonus of 50,000. -/
def scenarioAdjustments : List PayrollAdjustment := [⟨.bonus, 50000⟩]

/-- Scenario rates: PAYE 7.5, pension 8, NHF 2.5, NHIS 1.75. -/
def scenarioTaxConfig : TaxConfig := ⟨(75 : ℚ)/10, 8, (25 : ℚ)/10, (175 : ℚ)/100⟩

/-- **C9.** Concrete scenario: base salary 300,000, one bonus adjustment of
50,000, rates PAYE 7.5, pension 8, NHF 2.5, NHIS 1.75 yield gross 350,000,
paye 26,250, pension 28,000, nhf 8,750, nhis 6,125, total deductions
69,125 and net 280,875. -/
theorem calculate_scenario_bonus :
    (PayrollService.calculate scenarioEmployee scenarioAdjustments
        scenarioTaxConfig).gross_salary = 350000 ∧
    (PayrollService.calculate scenarioEmployee scenarioAdjustments
        scenarioTaxConfig).paye_tax = 26250 ∧
    (PayrollService.calculate scenarioEmployee scenarioAdjustments
        scenarioTaxConfig).pension_deduction = 28000 ∧
    (PayrollService.calculate scenarioEmployee scenarioAdjustments
        scenarioTaxConfig).nhf_deduction = 8750 ∧
    (PayrollService.calculate scenarioEmployee scenarioAdjustments
        scenarioTaxConfig).nhis_deduction = 6125 ∧
    (PayrollService.calculate scenarioEmployee scenarioAdjustments
        scenarioTaxConfig).total_deductions = 69125 ∧
    (PayrollService.calculate scenarioEmployee scenarioAdjustments
        scenarioTaxConfig).net_salary = 280875 := by
  refine ⟨?_, ?_, ?_, ?_, ?_, ?_, ?_⟩ <;>
    norm_num [PayrollService.calculate, scenarioEmployee, scenarioAdjustments,
      scenarioTaxConfig, isAdditionType, isDeductionType, List.filter, List.sum]

/-! ## The background orchestrator (`process_payroll_background`) -/

/-- `models::PayrollStatus` (src/models/mod.rs). -/
inductive PayrollStatus where
  | pending
  | processing
  | completed
  | failed
deriving DecidableEq, Repr

/-- A persisted row of `payroll_slips`, as inserted by `save_payroll_slip`
(src/services/payroll.rs, lines 317-357): all `CalculatedSlip` fields plus
the run id, the optional gateway reference and the payment status. -/
structure Slip where
  payroll_run_id : Nat
  employee_id : Nat
  base_salary : ℚ
  total_additions : ℚ
  gross_salary : ℚ
  paye_tax : ℚ
  pension_deduction : ℚ
  nhf_deduction : ℚ
  nhis_deduction : ℚ
  other_deductions : ℚ
  total_deductions : ℚ
  net_salary : ℚ
  monnify_reference : Option String
  payment_status : String
deriving DecidableEq, Repr

/-- The database row built by `save_payroll_slip` from a `CalculatedSlip`. -/
def mkSlip (payroll_run_id : Nat) (c : CalculatedSlip)
    (monnify_reference : Option String) (payment_status : String) : Slip :=
  { payroll_run_id := payroll_run_id
    employee_id := c.employee_id
    base_salary := c.base_salary
    total_additions := c.total_additions
    gross_salary := c.gross_salary
    paye_tax := c.paye_tax
    pension_deduction := c.pension_deduction
    nhf_deduction := c.nhf_deduction
    nhis_deduction := c.nhis_deduction
    other_deductions := c.other_deductions
    total_deductions := c.total_deductions
    net_salary := c.net_salary
    monnify_reference := monnify_reference
    payment_status := payment_status }

/-- Environment outcomes for one employee iteration of the orchestrator
loop: the adjustments query (`fetch_all … .unwrap_or_default()`, `none`
models a database error), the wallet-balance read (`fetch_one`, `false`
models the `Err` branch that skips the employee), and the gateway
transfer (`some reference` models `Ok(body)`, `none` models `Err`). -/
structure EmpEnv where
  adjustmentsResult : Option (List PayrollAdjustment)
  walletReadOk : Bool
  transferResult : Option String
deriving DecidableEq, Repr

/-- Environment of one whole run: the active-employee fetch (`none` models
the `Err` branch; each employee is paired with its per-iteration
environment) and the tax-config fetch
(`fetch_optional … .unwrap_or(None)`, so a query error and an absent row
are both `none`). -/
structure Env where
  employeesResult : Option (List (Employee × EmpEnv))
  taxConfigResult : Option TaxConfig

/-- Mutable state the orchestrator touches: the run row (status, the four
aggregate columns, and the history of status writes, recorded to reason
about the state machine), the organization's wallet balance and the
`payroll_slips` table. -/
structure RunState where
  status : PayrollStatus
  statusTrace : List PayrollStatus
  wallet : ℚ
  slips : List Slip
  total_gross : ℚ
  total_deductions : ℚ
  total_net : ℚ
  employee_count : Int
deriving DecidableEq, Repr

/-- Write a new value into `payroll_runs.status`, recording it in the
trace. -/
def setStatus (st : RunState) (s : PayrollStatus) : RunState :=
  { st with status := s, statusTrace := st.statusTrace ++ [s] }

/-- The run-row state created by the `run_payroll` handler: status
`pending`, all totals and the employee count zero
(src/handlers/payroll.rs, lines 132-154). -/
def initialRunState (wallet : ℚ) : RunState :=
  { status := .pending
    statusTrace := []
    wallet := wallet
    slips := []
    total_gross := 0
    total_deductions := 0
    total_net := 0
    employee_count := 0 }

/-- The zero-rate fallback `TaxConfig` built when no config row exists
(src/services/payroll.rs, lines 148-157). -/
def zeroTaxConfig : TaxConfig :=
  { paye_rate := 0, pension_rate := 0, nhf_rate := 0, nhis_rate := 0 }

/-- One iteration of the employee loop in `process_payroll_background`
(src/services/payroll.rs, lines 164-282): load adjustments (defaulting to
the empty list on error), calculate the slip, read the wallet (a database
error skips the employee with `continue`), fail the slip on insufficient
balance, otherwise attempt the transfer, debiting the wallet and
accumulating totals only on gateway success.  The payslip email is
best-effort and mutates nothing modelled here. -/
def processEmployee (payroll_run_id : Nat) (tax_config : TaxConfig)
    (st : RunState) (employee : Employee) (env : EmpEnv) : RunState :=
  let adjustments := env.adjustmentsResult.getD []
  let slip_data := PayrollService.calculate employee adjustments tax_config
  if !env.walletReadOk then
    st
  else if st.wallet < slip_data.net_salary then
    { st with slips := st.slips ++ [mkSlip payroll_run_id slip_data none "failed"] }
  else
    match env.transferResult with
    | some reference =>
        { st with
          wallet := st.wallet - slip_data.net_salary
          slips := st.slips ++
            [mkSlip payroll_run_id slip_data (some reference) "success"]
          total_gross := st.total_gross + slip_data.gross_salary
          total_deductions := st.total_deductions + slip_data.total_deductions
          total_net := st.total_net + slip_data.net_salary
          employee_count := st.employee_count + 1 }
    | none =>
        { st with slips := st.slips ++ [mkSlip payroll_run_id slip_data none "failed"] }

/-- `process_payroll_background` (src/services/payroll.rs, lines 96-306):
set status `processing`; fetch active employees, marking the run `failed`
when the fetch errors or returns no rows; fall back to zero tax rates
when no config exists; run the employee loop; finally write status
`completed` together with the accumulated totals.  The totals live in the
state already, so the final update is the status write. -/
def processPayrollBackground (payroll_run_id : Nat) (env : Env)
    (st0 : RunState) : RunState :=
  let st := setStatus st0 .processing
  match env.employeesResult with
  | none => setStatus st .failed
  | some employees =>
    if employees.isEmpty then
      setStatus st .failed
    else
      let tax_config := env.taxConfigResult.getD zeroTaxConfig
      let final := employees.foldl
        (fun s pair => processEmployee payroll_run_id tax_config s pair.1 pair.2) st
      setStatus final .completed

/-! ## Helper aggregates over persisted slips -/

/-- The slips of a run with payment status `success`. -/
def successSlips (slips : List Slip) : List Slip :=
  slips.filter (fun s => s.payment_status == "success")

/-- Sum of `net_salary` over a list of slips. -/
def sumNet (slips : List Slip) : ℚ := (slips.map (fun s => s.net_salary)).sum

/-- Sum of `gross_salary` over a list of slips. -/
def sumGross (slips : List Slip) : ℚ := (slips.map (fun s => s.gross_salary)).sum

/-- Sum of `total_deductions` over a list of slips. -/
def sumDeds (slips : List Slip) : ℚ :=
  (slips.map (fun s => s.total_deductions)).sum

lemma successSlips_append (a b : List Slip) :
    successSlips (a ++ b) = successSlips a ++ successSlips b := by
  simp [successSlips, List.filter_append]

lemma sumNet_append (a b : List Slip) : sumNet (a ++ b) = sumNet a + sumNet b := by
  simp [sumNet]

lemma sumGross_append (a b : List Slip) :
    sumGross (a ++ b) = sumGross a + sumGross b := by
  simp [sumGross]

lemma sumDeds_append (a b : List Slip) :
    sumDeds (a ++ b) = sumDeds a + sumDeds b := by
  simp [sumDeds]

/-- Effect of a single employee iteration on the modelled state: some list
of at most one slip is appended; status and its trace are untouched; the
wallet decreases by exactly the net salaries of the appended `success`
slips; each aggregate column grows by the corresponding sum over the
appended `success` slips. -/
lemma processEmployee_effect (payroll_run_id : Nat) (tax_config : TaxConfig)
    (st : RunState) (employee : Employee) (env : EmpEnv) :
    ∃ added : List Slip,
      (processEmployee payroll_run_id tax_config st employee env).slips
          = st.slips ++ added ∧
      (processEmployee payroll_run_id tax_config st employee env).status
          = st.status ∧
      (processEmployee payroll_run_id tax_config st employee env).statusTrace
          = st.statusTrace ∧
      (processEmployee payroll_run_id tax_config st employee env).wallet
          = st.wallet - sumNet (successSlips added) ∧
      (processEmployee payroll_run_id tax_config st employee env).total_gross
          = st.total_gross + sumGross (successSlips added) ∧
      (processEmployee payroll_run_id tax_config st employee env).total_deductions
          = st.total_deductions + sumDeds (successSlips added) ∧
      (processEmployee payroll_run_id tax_config st employee env).total_net
          = st.total_net + sumNet (successSlips added) ∧
      (processEmployee payroll_run_id tax_config st employee env).employee_count
          = st.employee_count + (successSlips added).length ∧
      added.length ≤ 1 := by
  unfold processEmployee
  cases hw : env.walletReadOk with
  | false =>
      refine ⟨[], ?_⟩
      simp [successSlips, sumNet, sumGross, sumDeds]
  | true =>
      by_cases hb : st.wallet <
          (PayrollService.calculate employee (env.adjustmentsResult.getD [])
            tax_config).net_salary
      · refine ⟨[mkSlip payroll_run_id
          (PayrollService.calculate employee (env.adjustmentsResult.getD [])
            tax_config) none "failed"], ?_⟩
        simp [hb, successSlips, sumNet, sumGross, sumDeds, mkSlip]
      · cases ht : env.transferResult with
        | some reference =>
            refine ⟨[mkSlip payroll_run_id
              (PayrollService.calculate employee (env.adjustmentsResult.getD [])
                tax_config) (some reference) "success"], ?_⟩
            simp [hb, successSlips, sumNet, sumGross, sumDeds, mkSlip]
        | none =>
            refine ⟨[mkSlip payroll_run_id
              (PayrollService.calculate employee (env.adjustmentsResult.getD [])
                tax_config) none "failed"], ?_⟩
            simp [hb, successSlips, sumNet, sumGross, sumDeds, mkSlip]

/-- Effect of the whole employee loop, by induction from
`processEmployee_effect`. -/
lemma foldl_processEmployee_effect (payroll_run_id : Nat)
    (tax_config : TaxConfig) (l : List (Employee × EmpEnv)) (st : RunState) :
    ∃ added : List Slip,
      (l.foldl (fun s p => processEmployee payroll_run_id tax_config s p.1 p.2)
          st).slips = st.slips ++ added ∧
      (l.foldl (fun s p => processEmployee payroll_run_id tax_config s p.1 p.2)
          st).status = st.status ∧
      (l.foldl (fun s p => processEmployee payroll_run_id tax_config s p.1 p.2)
          st).statusTrace = st.statusTrace ∧
      (l.foldl (fun s p => processEmployee payroll_run_id tax_config s p.1 p.2)
          st).wallet = st.wallet - sumNet (successSlips added) ∧
      (l.foldl (fun s p => processEmployee payroll_run_id tax_config s p.1 p.2)
          st).total_gross = st.total_gross + sumGross (successSlips added) ∧
      (l.foldl (fun s p => processEmployee payroll_run_id tax_config s p.1 p.2)
          st).total_deductions
        = st.total_deductions + sumDeds (successSlips added) ∧
      (l.foldl (fun s p => processEmployee payroll_run_id tax_config s p.1 p.2)
          st).total_net = st.total_net + sumNet (successSlips added) ∧
      (l.foldl (fun s p => processEmployee payroll_run_id tax_config s p.1 p.2)
          st).employee_count
        = st.employee_count + (successSlips added).length := by
  induction l generalizing st with
  | nil =>
      refine ⟨[], ?_⟩
      simp [successSlips, sumNet, sumGross, sumDeds]
  | cons p rest ih =>
      obtain ⟨a1, hs1, hst1, htr1, hw1, hg1, hd1, hn1, hc1, -⟩ :=
        processEmployee_effect payroll_run_id tax_config st p.1 p.2
      obtain ⟨a2, hs2, hst2, htr2, hw2, hg2, hd2, hn2, hc2⟩ :=
        ih (processEmployee payroll_run_id tax_config st p.1 p.2)
      refine ⟨a1 ++ a2, ?_, ?_, ?_, ?_, ?_, ?_, ?_, ?_⟩ <;>
        simp [List.foldl_cons, hs2, hst2, htr2, hw2, hg2, hd2, hn2, hc2,
          hs1, hst1, htr1, hw1, hg1, hd1, hn1, hc1, successSlips_append,
          sumNet_append, sumGross_append, sumDeds_append] <;> ring

/-- **C2.** The background run reaches `failed` exactly when the
active-employee fetch errors or returns no rows, reaches `completed`
otherwise regardless of per-employee outcomes, and its status history is
always `processing` followed by one terminal status, so no transition
leaves a terminal state. -/
theorem run_terminal_status (payroll_run_id : Nat) (env : Env) (w0 : ℚ) :
    let f := processPayrollBackground payroll_run_id env (initialRunState w0)
    (f.status = .failed ↔
      env.employeesResult = none ∨ env.employeesResult = some []) ∧
    (f.status = .failed ∨ f.status = .completed) ∧
    f.statusTrace = [.processing, f.status] := by
  unfold processPayrollBackground
  cases henv : env.employeesResult with
  | none => simp [setStatus, initialRunState]
  | some es =>
    cases es with
    | nil => simp [setStatus, initialRunState]
    | cons p rest =>
      obtain ⟨added, hs, hst, htr, -⟩ :=
        foldl_processEmployee_effect payroll_run_id
          (env.taxConfigResult.getD zeroTaxConfig) (p :: rest)
          (setStatus (initialRunState w0) .processing)
      simp [setStatus, initialRunState, -List.foldl_cons] at htr
      simp [setStatus, initialRunState, htr, -List.foldl_cons]

/-- **C3.** The wallet is debited by exactly `net_salary` for each slip the
iteration appends with status `success` and by nothing otherwise, and
after the run the balance equals the initial balance minus the sum of
`net_salary` over the run's `success` slips. -/
theorem wallet_conservation (payroll_run_id : Nat) (env : Env) (w0 : ℚ) :
    let f := processPayrollBackground payroll_run_id env (initialRunState w0)
    (∀ tax_config st employee ev,
      (processEmployee payroll_run_id tax_config st employee ev).wallet
        = st.wallet - sumNet (successSlips
            ((processEmployee payroll_run_id tax_config st employee ev).slips.drop
              st.slips.length))) ∧
    f.wallet = w0 - sumNet (successSlips f.slips) := by
  constructor
  · intro tax_config st employee ev
    obtain ⟨added, hs, -, -, hw, -⟩ :=
      processEmployee_effect payroll_run_id tax_config st employee ev
    rw [hs, hw, List.drop_left]
  · unfold processPayrollBackground
    cases henv : env.employeesResult with
    | none => simp [setStatus, initialRunState, successSlips, sumNet]
    | some es =>
      cases es with
      | nil => simp [setStatus, initialRunState, successSlips, sumNet]
      | cons p rest =>
        obtain ⟨added, hs, -, -, hw, -⟩ :=
          foldl_processEmployee_effect payroll_run_id
            (env.taxConfigResult.getD zeroTaxConfig) (p :: rest)
            (setStatus (initialRunState w0) .processing)
        simp [setStatus, initialRunState, -List.foldl_cons] at hs hw
        simp [setStatus, initialRunState, hs, hw, -List.foldl_cons]

/-- **C4.** For a completed run, every aggregate column written to the run
row is the corresponding sum over the run's `success` slips, and the
employee count is the number of `success` slips; `failed` slips
contribute nothing. -/
theorem completed_totals (payroll_run_id : Nat) (env : Env) (w0 : ℚ)
    (hc : (processPayrollBackground payroll_run_id env
      (initialRunState w0)).status = .completed) :
    let f := processPayrollBackground payroll_run_id env (initialRunState w0)
    f.total_net = sumNet (successSlips f.slips) ∧
    f.total_gross = sumGross (successSlips f.slips) ∧
    f.total_deductions = sumDeds (successSlips f.slips) ∧
    f.employee_count = ((successSlips f.slips).length : Int) := by
  unfold processPayrollBackground
  cases henv : env.employeesResult with
  | none =>
      simp [setStatus, initialRunState, successSlips, sumNet, sumGross, sumDeds]
  | some es =>
    cases es with
    | nil =>
        simp [setStatus, initialRunState, successSlips, sumNet, sumGross, sumDeds]
    | cons p rest =>
      obtain ⟨added, hs, -, -, -, hg, hd, hn, hcnt⟩ :=
        foldl_processEmployee_effect payroll_run_id
          (env.taxConfigResult.getD zeroTaxConfig) (p :: rest)
          (setStatus (initialRunState w0) .processing)
      simp [setStatus, initialRunState, -List.foldl_cons] at hs hg hd hn hcnt
      simp [setStatus, initialRunState, hs, hg, hd, hn, hcnt, -List.foldl_cons]

/-- Concrete sample employee used by witnesses. -/
def sampleEmployee : Employee := ⟨1, 50⟩

/-- Per-employee environment in which the wallet-balance read fails. -/
def skipEnv : EmpEnv := ⟨some [], false, none⟩

/-- Run environment with one active employee whose wallet read fails and
no tax config. -/
def envSkip : Env := ⟨some [(sampleEmployee, skipEnv)], none⟩

/-- Witness for `completed_totals` at a concrete completed run. -/
theorem completed_totals_witness :
    (processPayrollBackground 0 envSkip (initialRunState 100)).status
      = PayrollStatus.completed ∧
    (let f := processPayrollBackground 0 envSkip (initialRunState 100)
     f.total_net = sumNet (successSlips f.slips) ∧
     f.total_gross = sumGross (successSlips f.slips) ∧
     f.total_deductions = sumDeds (successSlips f.slips) ∧
     f.employee_count = ((successSlips f.slips).length : Int)) :=
  ⟨rfl, completed_totals 0 envSkip 100 rfl⟩

/-! ## The trigger handler (`run_payroll`, src/handlers/payroll.rs) -/

/-- The only `errors::AppError` variant relevant to run admission:
`PayrollAlreadyProcessed`, surfaced as a 422 conflict with message
"Payroll already processed for this period". -/
inductive AppError where
  | payrollAlreadyProcessed
deriving DecidableEq, Repr

/-- A row of `payroll_runs`, restricted to the columns the admission check
and the run creation touch. -/
structure PayrollRun where
  organization_id : Nat
  pay_period : String
  status : PayrollStatus
  total_gross : ℚ
  total_deductions : ℚ
  total_net : ℚ
  employee_count : Int
deriving DecidableEq, Repr

/-- The handler's existence query: a run of this organization and pay
period whose status is not `failed`
(`SELECT id FROM payroll_runs WHERE organization_id = $1 AND
pay_period = $2 AND status::text != 'failed'`). -/
def nonFailedForPair (orgId : Nat) (period : String) (r : PayrollRun) : Bool :=
  r.organization_id == orgId && r.pay_period == period && r.status != .failed

/-- The run row the handler inserts on acceptance: status `pending`, all
totals and the employee count zero. -/
def newRunFor (orgId : Nat) (period : String) : PayrollRun :=
  { organization_id := orgId
    pay_period := period
    status := .pending
    total_gross := 0
    total_deductions := 0
    total_net := 0
    employee_count := 0 }

/-- `run_payroll` (src/handlers/payroll.rs, lines 114-154), up to the
hand-off to the background task: reject with `PayrollAlreadyProcessed`
when a non-failed run exists for the (organization, pay period) pair,
otherwise insert a `pending` run with zero totals and return it.  The
`payroll_runs` table is the state; on success the new table contents and
the created run are returned. -/
def run_payroll (runs : List PayrollRun) (orgId : Nat) (period : String) :
    Except AppError (List PayrollRun × PayrollRun) :=
  if runs.any (nonFailedForPair orgId period) then
    .error .payrollAlreadyProcessed
  else
    .ok (runs ++ [newRunFor orgId period], newRunFor orgId period)

/-- **C5.** A trigger is rejected with the conflict error exactly when a
run for the (organization, pay period) pair exists in a state other than
`failed` (creating nothing); otherwise a `pending` run with zero totals
is appended, and when no non-failed run existed before, exactly one run
of the pair in a state of {pending, processing, completed} exists
afterwards. -/
theorem run_payroll_admission (runs : List PayrollRun) (orgId : Nat)
    (period : String) :
    (run_payroll runs orgId period = .error .payrollAlreadyProcessed ↔
      ∃ r ∈ runs, r.organization_id = orgId ∧ r.pay_period = period ∧
        r.status ≠ .failed) ∧
    (runs.any (nonFailedForPair orgId period) = false →
      run_payroll runs orgId period
          = .ok (runs ++ [newRunFor orgId period], newRunFor orgId period) ∧
      (newRunFor orgId period).status = .pending ∧
      (newRunFor orgId period).total_gross = 0 ∧
      (newRunFor orgId period).total_deductions = 0 ∧
      (newRunFor orgId period).total_net = 0 ∧
      (newRunFor orgId period).employee_count = 0 ∧
      (runs.filter (nonFailedForPair orgId period)).length = 0 ∧
      ((runs ++ [newRunFor orgId period]).filter
          (nonFailedForPair orgId period)).length = 1) := by
  constructor
  · unfold run_payroll
    by_cases h : runs.any (nonFailedForPair orgId period)
    · simp only [h, if_true]
      constructor
      · intro _
        obtain ⟨r, hr, hpr⟩ := List.any_eq_true.mp h
        refine ⟨r, hr, ?_⟩
        simpa [nonFailedForPair, and_assoc] using hpr
      · intro _
        trivial
    · simp only [Bool.not_eq_true] at h
      simp only [h, Bool.false_eq_true, if_false]
      constructor
      · intro habs
        exact absurd habs (by simp)
      · rintro ⟨r, hr, h1, h2, h3⟩
        have : nonFailedForPair orgId period r = true := by
          simp [nonFailedForPair, h1, h2, h3]
        have := List.any_eq_true.mpr ⟨r, hr, this⟩
        rw [h] at this
        exact absurd this (by simp)
  · intro h
    have hempty : runs.filter (nonFailedForPair orgId period) = [] := by
      rw [List.filter_eq_nil]
      intro r hr
      intro hpr
      have := List.any_eq_true.mpr ⟨r, hr, hpr⟩
      rw [h] at this
      exact absurd this (by simp)
    refine ⟨?_, rfl, rfl, rfl, rfl, rfl, ?_, ?_⟩
    · unfold run_payroll
      simp [h]
    · simp [hempty]
    · simp [List.filter_append, hempty, nonFailedForPair, newRunFor]

/-- Witness for `run_payroll_admission`: with no prior runs the trigger is
accepted and creates the pending run. -/
theorem run_payroll_admission_witness :
    run_payroll [] 1 "2024-01"
      = .ok ([newRunFor 1 "2024-01"], newRunFor 1 "2024-01") := by
  have h := (run_payroll_admission [] 1 "2024-01").2 rfl
  simpa using h.1

/-! ## Slips per employee (C6) -/

lemma calculate_employee_id (employee : Employee)
    (adjustments : List PayrollAdjustment) (tax_config : TaxConfig) :
    (PayrollService.calculate employee adjustments tax_config).employee_id
      = employee.id := rfl

/-- **C6 (amended).** For each employee iteration whose wallet-balance read
succeeds, exactly one slip is appended, carrying that employee's id and
the run's id; in the insufficient-funds and gateway-failure branches it
is a `failed` slip with no gateway reference, in the gateway-success
branch a `success` slip carrying the returned reference, and an appended
slip has status `success` exactly when it carries a reference. -/
theorem slip_per_employee (payroll_run_id : Nat) (tax_config : TaxConfig)
    (st : RunState) (employee : Employee) (ev : EmpEnv)
    (hw : ev.walletReadOk = true) :
    let st2 := processEmployee payroll_run_id tax_config st employee ev
    let c := PayrollService.calculate employee (ev.adjustmentsResult.getD [])
      tax_config
    st2.slips.length = st.slips.length + 1 ∧
    (st.wallet < c.net_salary →
      st2.slips = st.slips ++ [mkSlip payroll_run_id c none "failed"]) ∧
    (¬ st.wallet < c.net_salary →
      (∀ r, ev.transferResult = some r →
        st2.slips = st.slips ++ [mkSlip payroll_run_id c (some r) "success"]) ∧
      (ev.transferResult = none →
        st2.slips = st.slips ++ [mkSlip payroll_run_id c none "failed"])) ∧
    (∀ s ∈ st2.slips.drop st.slips.length,
      s.employee_id = employee.id ∧ s.payroll_run_id = payroll_run_id ∧
      (s.payment_status = "success" ↔ s.monnify_reference ≠ none)) := by
  unfold processEmployee
  by_cases hb : st.wallet <
      (PayrollService.calculate employee (ev.adjustmentsResult.getD [])
        tax_config).net_salary
  · refine ⟨?_, ?_, ?_, ?_⟩ <;>
      simp [hw, hb, mkSlip, calculate_employee_id, List.drop_left]
  · cases ht : ev.transferResult with
    | some reference =>
        refine ⟨?_, ?_, ?_, ?_⟩ <;>
          simp [hw, hb, ht, mkSlip, calculate_employee_id, List.drop_left]
    | none =>
        refine ⟨?_, ?_, ?_, ?_⟩ <;>
          simp [hw, hb, ht, mkSlip, calculate_employee_id, List.drop_left]

/-- Per-employee environment that pays through the gateway oracle's
failure branch with a healthy wallet read. -/
def payEnv : EmpEnv := ⟨some [], true, none⟩

/-- Witness for `slip_per_employee`: one slip is appended for the sample
employee. -/
theorem slip_per_employee_witness :
    (processEmployee 0 zeroTaxConfig (initialRunState 100) sampleEmployee
        payEnv).slips.length = (initialRunState 100).slips.length + 1 :=
  (slip_per_employee 0 zeroTaxConfig (initialRunState 100) sampleEmployee
    payEnv rfl).1

/-- **C6 counterexample.** A run with one processed active employee whose
wallet-balance read errors reaches `completed` with no slip at all for
that employee: the claimed "exactly one slip per processed employee,
regardless of branch" fails on the wallet-read-error branch. -/
theorem slip_per_employee_counterexample :
    envSkip.employeesResult = some [(sampleEmployee, skipEnv)] ∧
    (processPayrollBackground 0 envSkip (initialRunState 100)).status
      = PayrollStatus.completed ∧
    (processPayrollBackground 0 envSkip (initialRunState 100)).slips = [] :=
  ⟨rfl, rfl, rfl⟩

/-! ## Zero-rate fallback (C8) -/

/-- The slip shape produced under the zero-rate fallback config: all four
tax components zero, total deductions reduced to the other-deductions
sum, and net salary the clamped difference. -/
def zeroRateSlip (s : Slip) : Prop :=
  s.paye_tax = 0 ∧ s.pension_deduction = 0 ∧ s.nhf_deduction = 0 ∧
  s.nhis_deduction = 0 ∧ s.total_deductions = s.other_deductions ∧
  s.net_salary = max (s.gross_salary - s.other_deductions) 0

lemma calculate_zero_rates (employee : Employee)
    (adjustments : List PayrollAdjustment) :
    (PayrollService.calculate employee adjustments zeroTaxConfig).paye_tax = 0 ∧
    (PayrollService.calculate employee adjustments zeroTaxConfig).pension_deduction = 0 ∧
    (PayrollService.calculate employee adjustments zeroTaxConfig).nhf_deduction = 0 ∧
    (PayrollService.calculate employee adjustments zeroTaxConfig).nhis_deduction = 0 ∧
    (PayrollService.calculate employee adjustments zeroTaxConfig).total_deductions
      = (PayrollService.calculate employee adjustments zeroTaxConfig).other_deductions ∧
    (PayrollService.calculate employee adjustments zeroTaxConfig).net_salary
      = max ((PayrollService.calculate employee adjustments zeroTaxConfig).gross_salary
          - (PayrollService.calculate employee adjustments zeroTaxConfig).other_deductions) 0 := by
  refine ⟨?_, ?_, ?_, ?_, ?_, ?_⟩ <;>
    simp [PayrollService.calculate, zeroTaxConfig]

lemma processEmployee_zero_rates (payroll_run_id : Nat) (st : RunState)
    (employee : Employee) (ev : EmpEnv)
    (h : ∀ s ∈ st.slips, zeroRateSlip s) :
    ∀ s ∈ (processEmployee payroll_run_id zeroTaxConfig st employee ev).slips,
      zeroRateSlip s := by
  obtain ⟨h1, h2, h3, h4, h5, h6⟩ :=
    calculate_zero_rates employee (ev.adjustmentsResult.getD [])
  unfold processEmployee
  by_cases hw : ev.walletReadOk
  · by_cases hb : st.wallet <
        (PayrollService.calculate employee (ev.adjustmentsResult.getD [])
          zeroTaxConfig).net_salary
    · intro s hs
      simp [hw, hb, List.mem_append] at hs
      rcases hs with hs | hs
      · exact h s hs
      · subst hs
        exact ⟨h1, h2, h3, h4, h5, h6⟩
    · cases ht : ev.transferResult with
      | some reference =>
          intro s hs
          simp [hw, hb, ht, List.mem_append] at hs
          rcases hs with hs | hs
          · exact h s hs
          · subst hs
            exact ⟨h1, h2, h3, h4, h5, h6⟩
      | none =>
          intro s hs
          simp [hw, hb, ht, List.mem_append] at hs
          rcases hs with hs | hs
          · exact h s hs
          · subst hs
            exact ⟨h1, h2, h3, h4, h5, h6⟩
  · intro s hs
    simp [hw] at hs
    exact h s hs

lemma foldl_zero_rates (payroll_run_id : Nat)
    (l : List (Employee × EmpEnv)) (st : RunState)
    (h : ∀ s ∈ st.slips, zeroRateSlip s) :
    ∀ s ∈ (l.foldl
        (fun s p => processEmployee payroll_run_id zeroTaxConfig s p.1 p.2)
        st).slips, zeroRateSlip s := by
  induction l generalizing st with
  | nil => exact h
  | cons p rest ih =>
      exact ih _ (processEmployee_zero_rates payroll_run_id st p.1 p.2 h)

/-- **C8 (amended).** When no tax config exists, every slip of the run has
all four tax components equal to 0, total deductions reduced to the
other-deductions sum, and `net_salary = max(gross_salary −
other_deductions, 0)` (hence `= gross_salary` when there are no
deduction-typed adjustments); the absence of a config never makes the
run fail — the run's status depends only on the employee fetch. -/
lemma setStatus_slips (st : RunState) (s : PayrollStatus) :
    (setStatus st s).slips = st.slips := rfl

lemma setStatus_status (st : RunState) (s : PayrollStatus) :
    (setStatus st s).status = s := rfl

/-- Normal form of the orchestrator when the employee fetch errors. -/
lemma processPayrollBackground_noFetch (payroll_run_id : Nat) (env : Env)
    (st0 : RunState) (henv : env.employeesResult = none) :
    processPayrollBackground payroll_run_id env st0
      = setStatus (setStatus st0 .processing) .failed := by
  unfold processPayrollBackground
  rw [henv]

/-- Normal form of the orchestrator when no active employee exists. -/
lemma processPayrollBackground_noEmployees (payroll_run_id : Nat) (env : Env)
    (st0 : RunState) (henv : env.employeesResult = some []) :
    processPayrollBackground payroll_run_id env st0
      = setStatus (setStatus st0 .processing) .failed := by
  unfold processPayrollBackground
  rw [henv]
  rfl

/-- Normal form of the orchestrator when at least one active employee
exists. -/
lemma processPayrollBackground_cons (payroll_run_id : Nat) (env : Env)
    (st0 : RunState) (p : Employee × EmpEnv) (rest : List (Employee × EmpEnv))
    (henv : env.employeesResult = some (p :: rest)) :
    processPayrollBackground payroll_run_id env st0
      = setStatus ((p :: rest).foldl
          (fun s pair => processEmployee payroll_run_id
            (env.taxConfigResult.getD zeroTaxConfig) s pair.1 pair.2)
          (setStatus st0 .processing)) .completed := by
  unfold processPayrollBackground
  rw [henv]
  rfl

theorem zero_config_run (payroll_run_id : Nat) (env : Env) (w0 : ℚ)
    (hcfg : env.taxConfigResult = none) :
    let f := processPayrollBackground payroll_run_id env (initialRunState w0)
    (∀ s ∈ f.slips, zeroRateSlip s) ∧
    (f.status = .failed ↔
      env.employeesResult = none ∨ env.employeesResult = some []) := by
  cases henv : env.employeesResult with
  | none =>
      rw [processPayrollBackground_noFetch payroll_run_id env _ henv]
      simp [setStatus, initialRunState]
  | some es =>
    cases es with
    | nil =>
        rw [processPayrollBackground_noEmployees payroll_run_id env _ henv]
        simp [setStatus, initialRunState]
    | cons p rest =>
        rw [processPayrollBackground_cons payroll_run_id env _ p rest henv]
        rw [hcfg]
        simp only [Option.getD_none]
        refine ⟨?_, ?_⟩
        · intro s hsmem
          rw [setStatus_slips] at hsmem
          exact foldl_zero_rates payroll_run_id (p :: rest)
            (setStatus (initialRunState w0) .processing)
            (by simp [setStatus, initialRunState]) s hsmem
        · rw [setStatus_status]
          simp

/-- Witness for `zero_config_run` at a concrete config-less run. -/
theorem zero_config_run_witness :
    envSkip.taxConfigResult = none ∧
    (let f := processPayrollBackground 0 envSkip (initialRunState 100)
     (∀ s ∈ f.slips, zeroRateSlip s) ∧
     (f.status = .failed ↔
       envSkip.employeesResult = none ∨ envSkip.employeesResult = some [])) :=
  ⟨rfl, zero_config_run 0 envSkip 100 rfl⟩

/-- **C8 counterexample.** With no tax config, an employee with base
salary 100 and one other-deduction adjustment of 200 gets net salary 0,
not `gross_salary − other_deductions = −100`: the unclamped equation of
the claim fails once deductions exceed gross salary. -/
theorem zero_config_net_counterexample :
    let s := PayrollService.calculate ⟨2, 100⟩
      [⟨.otherDeduction, 200⟩] zeroTaxConfig
    s.gross_salary = 100 ∧ s.other_deductions = 200 ∧ s.net_salary = 0 ∧
    s.net_salary ≠ s.gross_salary - s.other_deductions := by
  refine ⟨?_, ?_, ?_, ?_⟩ <;>
    norm_num [PayrollService.calculate, zeroTaxConfig, isAdditionType,
      isDeductionType, List.filter, max_def]

/-! ## Adjustment-fetch failure (C10) -/

/-- **C10.** When the adjustments query for an employee fails, the
iteration behaves exactly as if the employee had an empty adjustment
list: the failure is absorbed, the employee is still processed, and the
slip is computed from base salary and tax rates alone (no additions, no
other deductions, gross equal to base salary). -/
theorem adjustments_error_defaults_empty (payroll_run_id : Nat)
    (tax_config : TaxConfig) (st : RunState) (employee : Employee)
    (ev : EmpEnv) (h : ev.adjustmentsResult = none) :
    processEmployee payroll_run_id tax_config st employee ev
      = processEmployee payroll_run_id tax_config st employee
          { ev with adjustmentsResult := some [] } ∧
    PayrollService.calculate employee (ev.adjustmentsResult.getD []) tax_config
      = PayrollService.calculate employee [] tax_config ∧
    (PayrollService.calculate employee [] tax_config).total_additions = 0 ∧
    (PayrollService.calculate employee [] tax_config).other_deductions = 0 ∧
    (PayrollService.calculate employee [] tax_config).gross_salary
      = employee.base_salary := by
  refine ⟨?_, ?_, ?_, ?_, ?_⟩
  · unfold processEmployee
    rw [h]
    exact rfl
  · rw [h]
    exact rfl
  · simp [PayrollService.calculate]
  · simp [PayrollService.calculate]
  · simp [PayrollService.calculate]

/-- Per-employee environment whose adjustments query fails. -/
def noAdjEnv : EmpEnv := ⟨none, true, none⟩

/-- Witness for `adjustments_error_defaults_empty` at a concrete failing
adjustments query. -/
theorem adjustments_error_defaults_empty_witness :
    processEmployee 0 zeroTaxConfig (initialRunState 100) sampleEmployee
        noAdjEnv
      = processEmployee 0 zeroTaxConfig (initialRunState 100) sampleEmployee
          { noAdjEnv with adjustmentsResult := some [] } :=
  (adjustments_error_defaults_empty 0 zeroTaxConfig (initialRunState 100)
    sampleEmployee noAdjEnv rfl).1
